import Mathlib

/-!
# Verification of `scripts/compare-test-backend-ops-perf.py`

A shallow embedding of the benchmark-comparison script.  Lines and file
names are modelled as `String` / `List Char`; Python floats are modelled as
exact rationals (every numeric token the script accepts is a decimal
literal, so its value is an exact rational; the scale factors 1000 and
1/1000 are applied exactly); raised Python exceptions are modelled by the
`Except PyErr` monad; a possibly missing input file is `Option (List String)`
(`none` = the file does not exist, `some lines` = its lines).
-/

/-- Python exceptions that the script can raise while computing. -/
inductive PyErr where
  | valueError
  | zeroDivisionError
deriving DecidableEq, Repr

deriving instance DecidableEq for Except

/-- ASCII whitespace: the characters stripped by `str.strip()` and matched
by the regex class `\s` (restricted to ASCII, which is all the script's
input format uses). -/
def isWS (c : Char) : Bool :=
  c == ' ' || c == '\t' || c == '\n' || c == '\r' || c == '\x0b' || c == '\x0c'

/-- Characters matched by the value pattern `[\d.]` of the two regexes. -/
def isNumChar (c : Char) : Bool := c.isDigit || c == '.'

/-- Remove trailing whitespace. -/
def dropTrailingWS (l : List Char) : List Char := (l.reverse.dropWhile isWS).reverse

/-- Model of Python `s.strip()`. -/
def trimWS (l : List Char) : List Char := dropTrailingWS (l.dropWhile isWS)

/-- Model of the test `":" in line` together with `line.split(":", 1)`:
`none` when the line has no colon, otherwise the parts before and after
the first colon. -/
def splitFirstColon : List Char → Option (List Char × List Char)
  | [] => none
  | c :: cs =>
    if c == ':' then some ([], cs)
    else
      match splitFirstColon cs with
      | none => none
      | some (a, b) => some (c :: a, b)

/-- After `ESC [` was seen: consume `[0-9;]*` followed by `m`, returning
the remainder, or `none` if the escape sequence does not terminate. -/
def ansiBody : List Char → Option (List Char)
  | [] => none
  | c :: cs => if c == 'm' then some cs else if c.isDigit || c == ';' then ansiBody cs else none

/-- After `ESC` was seen: consume `[` then the body of the color code. -/
def ansiTail : List Char → Option (List Char)
  | '[' :: cs => ansiBody cs
  | _ => none

/-- Fuelled scanner for `re.sub(r"\x1b\[[0-9;]*m", "", s)`: delete every
non-overlapping ANSI color sequence, scanning left to right. -/
def stripAnsiFuel : Nat → List Char → List Char
  | 0, l => l
  | _ + 1, [] => []
  | fuel + 1, c :: cs =>
    if c == '\x1b' then
      match ansiTail cs with
      | some rest => stripAnsiFuel fuel rest
      | none => c :: stripAnsiFuel fuel cs
    else c :: stripAnsiFuel fuel cs

/-- Model of `re.sub(r"\x1b\[[0-9;]*m", "", s)`. -/
def stripAnsi (l : List Char) : List Char := stripAnsiFuel l.length l

/-- Numeric value of a list of decimal digit characters. -/
def natOfDigits (l : List Char) : Nat := l.foldl (fun a c => 10 * a + (c.toNat - 48)) 0

/-- Exact value of a digits-and-dot token: the rational that Python's
`float(s)` denotes when it succeeds. -/
def decValue (cs : List Char) : ℚ :=
  let ip := cs.takeWhile (fun c => c != '.')
  let fp := (cs.dropWhile (fun c => c != '.')).drop 1
  (natOfDigits ip : ℚ) + (natOfDigits fp : ℚ) / (10 : ℚ) ^ fp.length

/-- On a non-empty token drawn from `[\d.]+`, Python's `float` succeeds
exactly when the token has at most one dot and at least one digit
(`float("1.2.3")` and `float(".")` raise `ValueError`). -/
def validFloat (cs : List Char) : Prop := cs.count '.' ≤ 1 ∧ cs.any Char.isDigit = true

instance (cs : List Char) : Decidable (validFloat cs) := by
  unfold validFloat
  infer_instance

/-- Model of `float(s)` on a `[\d.]+` token: `none` models a raised
`ValueError`. -/
def pyFloat? (cs : List Char) : Option ℚ := if validFloat cs then some (decValue cs) else none

/-- The FLOPS alternation `(GFLOPS|TFLOPS|MFLOPS)` of the first regex. -/
def flopsUnits : List (List Char) :=
  [['G','F','L','O','P','S'], ['T','F','L','O','P','S'], ['M','F','L','O','P','S']]

/-- The bandwidth alternation `(GB/s|MB/s|TB/s)` of the second regex. -/
def bwUnits : List (List Char) :=
  [['G','B','/','s'], ['M','B','/','s'], ['T','B','/','s']]

/-- Model of `re.search(r"([\d.]+)\s+(u1|u2|u3)\s*$", s)` on the stripped
string `s`, given as its reversed character list `rs`.  Because the
pattern is anchored at the end of a stripped string, a match exists
exactly when `s` ends with one of the units, preceded by at least one
whitespace character, preceded by a non-empty run of `[\d.]` characters;
the captured group is that maximal run.  Returns (captured token in
forward order, matched unit). -/
def matchOne (rs : List Char) (u : List Char) : Option (List Char × List Char) :=
  if u.reverse.isPrefixOf rs then
    let rest := rs.drop u.reverse.length
    let ws := rest.takeWhile isWS
    if ws.isEmpty then none
    else
      let num := (rest.dropWhile isWS).takeWhile isNumChar
      if num.isEmpty then none else some (num.reverse, u)
  else none

def matchTail (units : List (List Char)) (rs : List Char) : Option (List Char × List Char) :=
  units.findSome? (matchOne rs)

/-- The key/data decomposition stage of `parse_benchmark_line`: strip the
line, split at the first colon (`none` if there is no colon), strip the
key, remove ANSI color codes from the data part and strip it.  Returns
the stripped key and the reversed stripped data part. -/
def dataTail (line : String) : Option (List Char × List Char) :=
  match splitFirstColon (trimWS line.data) with
  | none => none
  | some (k, d) => some (trimWS k, (trimWS (stripAnsi d)).reverse)

/-- Model of `parse_benchmark_line`.  `.ok none` models the no-match
result `(None, None, None)`; `.error .valueError` models the uncaught
`ValueError` raised by `float(value_str)` on a captured token that is not
a valid float literal. -/
def parse_benchmark_line (line : String) : Except PyErr (Option (String × ℚ × String)) :=
  match dataTail line with
  | none => .ok none
  | some (key, rs) =>
    match matchTail flopsUnits rs with
    | some (num, u) =>
      match pyFloat? num with
      | none => .error .valueError
      | some v =>
        let nv := if u = ['T','F','L','O','P','S'] then v * 1000
          else if u = ['M','F','L','O','P','S'] then v / 1000 else v
        .ok (some (String.mk key, nv, "GFLOPS"))
    | none =>
      match matchTail bwUnits rs with
      | some (num, u) =>
        match pyFloat? num with
        | none => .error .valueError
        | some v =>
          let nv := if u = ['T','B','/','s'] then v * 1000
            else if u = ['M','B','/','s'] then v / 1000 else v
          .ok (some (String.mk key, nv, "GB/s"))
      | none => .ok none

/-- Model of `extract_commit_id`, applied to the file name
(`Path(filepath).name`).  `re.match(r"test-backend-ops-perf-([^.]+)\.log", n)`
is anchored at the start only: the literal prefix, then a maximal
non-empty run of non-dot characters, then the literal `.log`; anything
after `.log` is not constrained. -/
def extract_commit_id (filename : String) : String :=
  let pre := "test-backend-ops-perf-".data
  let cs := filename.data
  if pre.isPrefixOf cs then
    let rest := cs.drop pre.length
    let t := rest.takeWhile (fun c => c != '.')
    if t.isEmpty then ""
    else if ['.', 'l', 'o', 'g'].isPrefixOf (rest.drop t.length) then String.mk t else ""
  else ""

/-- A loaded result set: the Python dict `results`, as an association
list with unique keys; the payload is (normalized value, unit string). -/
abbrev ResultSet := List (String × (ℚ × String))

/-- Python `results[key] = v`: overwrite in place on a duplicate key,
append otherwise. -/
def dictInsert (d : ResultSet) (k : String) (v : ℚ × String) : ResultSet :=
  if d.any (fun p => p.1 == k) then d.map (fun p => if p.1 == k then (k, v) else p)
  else d ++ [(k, v)]

/-- Python `results.get(key)`. -/
def dictGet (d : ResultSet) (k : String) : Option (ℚ × String) :=
  (d.find? (fun p => p.1 == k)).map (·.2)

/-- The line loop of `load_results`: parse each line; keep a parsed line
only when its key is truthy (non-empty); a raised `ValueError` escapes
the loop (only `FileNotFoundError` is caught in the source). -/
def loadLoop : List String → ResultSet → Except PyErr ResultSet
  | [], d => .ok d
  | l :: ls, d =>
    match parse_benchmark_line l with
    | .error e => .error e
    | .ok none => loadLoop ls d
    | .ok (some (k, v, u)) => if k = "" then loadLoop ls d else loadLoop ls (dictInsert d k (v, u))

/-- Model of `load_results` applied to a file that exists, given as its
list of lines. -/
def load_results (lines : List String) : Except PyErr ResultSet := loadLoop lines []

/-- One comparison entry built by the main loop. -/
structure CompEntry where
  key : String
  baseline : Option ℚ
  compare : Option ℚ
  change : ℚ
deriving DecidableEq, Repr

/-- Model of `sorted(list(set(baseline_results.keys()) | set(compare_results.keys())))`. -/
def all_keys (b c : ResultSet) : List String :=
  List.insertionSort (fun x y => x ≤ y) ((b.map Prod.fst ++ c.map Prod.fst).dedup)

/-- The body of the comparison loop for one key: change 0 when either
side is missing; `(compare - baseline) / baseline * 100` when both are
present, raising `ZeroDivisionError` when the baseline value is 0. -/
def mkEntry (b c : ResultSet) (k : String) : Except PyErr CompEntry :=
  match (dictGet b k).map Prod.fst, (dictGet c k).map Prod.fst with
  | some x, some y =>
    if x = 0 then .error .zeroDivisionError
    else .ok ⟨k, some x, some y, (y - x) / x * 100⟩
  | bx, cx => .ok ⟨k, bx, cx, 0⟩

/-- The comparison loop: stops at the first raised exception, otherwise
collects the entries in key order. -/
def mapME (f : String → Except PyErr CompEntry) : List String → Except PyErr (List CompEntry)
  | [] => .ok []
  | k :: ks =>
    match f k with
    | .error e => .error e
    | .ok e =>
      match mapME f ks with
      | .error e2 => .error e2
      | .ok es => .ok (e :: es)

/-- The whole comparison stage of `main`. -/
def compute_comparisons (b c : ResultSet) : Except PyErr (List CompEntry) :=
  mapME (mkEntry b c) (all_keys b c)

/-- Outcome of one run of the script. -/
inductive RunResult where
  | exitMissingFile
  | abortEmpty
  | crash (e : PyErr)
  | wroteReport (rows : List CompEntry)
deriving DecidableEq, Repr

/-- Model of `main` after argument parsing.  Each input file is `none`
(missing: `load_results` logs an error and calls `sys.exit(1)`) or
`some lines`.  `.abortEmpty` is the `logger.error(...); return` path taken
when either result set is empty (a plain return from `main`, so the
process exit status is 0).  `.crash e` is an uncaught exception
(traceback on stderr, non-zero exit status).  `.wroteReport rows` is the
successful path: the report file is written with one row per comparison
entry. -/
def runMain (bf cf : Option (List String)) : RunResult :=
  match bf with
  | none => .exitMissingFile
  | some bl =>
    match load_results bl with
    | .error e => .crash e
    | .ok rb =>
      match cf with
      | none => .exitMissingFile
      | some cl =>
        match load_results cl with
        | .error e => .crash e
        | .ok rc =>
          if rb = [] ∨ rc = [] then .abortEmpty
          else
            match compute_comparisons rb rc with
            | .error e => .crash e
            | .ok rows => .wroteReport rows

/-- Process exit status of a run outcome. -/
def exitCode : RunResult → Nat
  | .exitMissingFile => 1
  | .abortEmpty => 0
  | .crash _ => 1
  | .wroteReport _ => 0

/-- The report file contents (its data rows), when one was written. -/
def reportOf : RunResult → Option (List CompEntry)
  | .wroteReport rows => some rows
  | _ => none

/-- Whether an error was surfaced to the operator (logger output for the
missing-file and empty-results paths, interpreter traceback for a crash). -/
def errorSurfaced : RunResult → Bool
  | .wroteReport _ => false
  | _ => true

/-- Fuelled decimal printer (most significant digit first). -/
def natCharsAux : Nat → Nat → List Char
  | 0, _ => []
  | fuel + 1, n => if n < 10 then [Nat.digitChar n] else natCharsAux fuel (n / 10) ++ [Nat.digitChar (n % 10)]

/-- Decimal digits of `n`. -/
def natChars (n : Nat) : List Char := natCharsAux (n + 1) n

/-- Two-digit zero-padded decimal representation of `n < 100`. -/
def pad2 (n : Nat) : List Char := if n < 10 then '0' :: natChars n else natChars n

/-- Round to the nearest integer, ties to even: the rounding Python's
fixed-point formatting applies. -/
def roundHalfEven (q : ℚ) : ℤ :=
  let f := q.floor
  let r := q - (f : ℚ)
  if r < 1/2 then f else if 1/2 < r then f + 1 else if f % 2 = 0 then f else f + 1

/-- Model of Python `f"{x:.2f}"` on the exact rational value: sign taken
from `x`, then the integer part and exactly two fractional digits of the
rounded magnitude. -/
def fixed2 (x : ℚ) : String :=
  let m := (roundHalfEven (x * 100)).natAbs
  String.mk ((if x < 0 then ['-'] else []) ++ natChars (m / 100) ++ '.' :: pad2 (m % 100))

/-- Model of `format_change` (the float literal `0.1` read as 1/10). -/
def format_change (change : ℚ) : String :=
  if change > 1/10 then "+" ++ fixed2 change ++ "%"
  else if change < -(1/10) then fixed2 change ++ "%"
  else " ~0.00%"

/-- The characters after the last dot of a string (the rendered decimals
of a fixed-point number). -/
def afterLastDot (s : String) : List Char := (s.data.reverse.takeWhile (fun c => c != '.')).reverse

/-- Scale factor applied by the normalization table of the parser. -/
def scaleOf (u : List Char) : ℚ :=
  if u = ['T','F','L','O','P','S'] ∨ u = ['T','B','/','s'] then 1000
  else if u = ['M','F','L','O','P','S'] ∨ u = ['M','B','/','s'] then 1/1000
  else 1

/-- Normalization target reported for a unit family. -/
def familyOf (u : List Char) : String := if u ∈ flopsUnits then "GFLOPS" else "GB/s"

/-- A reversed data-part remainder that cannot extend a captured numeric
token: empty, or starting with a non-`[\d.]` character. -/
def goodTail (r : List Char) : Prop := r = [] ∨ ∃ c t, r = c :: t ∧ isNumChar c = false

/-! ## Basic list lemmas -/

lemma dropWhile_append_cons_neg (p : Char → Bool) (a : List Char) (c : Char) (r : List Char)
    (hc : p c = false) :
    List.dropWhile p (a ++ c :: r) = a.dropWhile p ++ c :: r := by
  induction a with
  | nil =>
    have hcp : ¬p c = true := by simp [hc]
    simp [List.dropWhile_cons_of_neg hcp]
  | cons x xs ih =>
    by_cases hx : p x = true
    · simpa [List.dropWhile_cons_of_pos hx] using ih
    · simp [List.dropWhile_cons_of_neg hx]

lemma dropWhile_append_of_head_neg (p : Char → Bool) (a b : List Char)
    (ha : List.dropWhile p a ≠ []) :
    List.dropWhile p (a ++ b) = List.dropWhile p a ++ b := by
  rw [List.dropWhile_append]
  simp [List.isEmpty_iff, ha]

lemma dropWhile_idem (p : Char → Bool) (l : List Char) :
    List.dropWhile p (List.dropWhile p l) = List.dropWhile p l := by
  induction l with
  | nil => simp
  | cons x xs ih =>
    by_cases hx : p x = true
    · simpa [List.dropWhile_cons_of_pos hx] using ih
    · simp [List.dropWhile_cons_of_neg hx]

lemma mem_of_mem_dropWhile {p : Char → Bool} {c : Char} {l : List Char}
    (h : c ∈ List.dropWhile p l) : c ∈ l :=
  (List.dropWhile_sublist p).mem h

lemma splitFirstColon_append (a b : List Char) (ha : ':' ∉ a) :
    splitFirstColon (a ++ ':' :: b) = some (a, b) := by
  induction a with
  | nil => simp [splitFirstColon]
  | cons x xs ih =>
    have hx : ¬(x == ':') = true := by
      simp only [beq_iff_eq]
      intro h
      exact ha (h ▸ List.mem_cons_self x xs)
    have ihs := ih (fun h => ha (List.mem_cons_of_mem x h))
    simp [splitFirstColon, hx, ihs]

lemma splitFirstColon_none (l : List Char) (h : ':' ∉ l) : splitFirstColon l = none := by
  induction l with
  | nil => rfl
  | cons x xs ih =>
    have hx : ¬(x == ':') = true := by
      simp only [beq_iff_eq]
      intro hh
      exact h (hh ▸ List.mem_cons_self x xs)
    have ihs := ih (fun hh => h (List.mem_cons_of_mem x hh))
    simp [splitFirstColon, hx, ihs]

lemma stripAnsiFuel_id (fuel : Nat) (l : List Char) (h : '\x1b' ∉ l) :
    stripAnsiFuel fuel l = l := by
  induction fuel generalizing l with
  | zero => rfl
  | succ n ih =>
    cases l with
    | nil => rfl
    | cons c cs =>
      have hc : ¬(c == '\x1b') = true := by
        simp only [beq_iff_eq]
        intro hh
        exact h (hh ▸ List.mem_cons_self c cs)
      have ihs := ih cs (fun hh => h (List.mem_cons_of_mem c hh))
      simp [stripAnsiFuel, hc, ihs]

lemma stripAnsi_id (l : List Char) (h : '\x1b' ∉ l) : stripAnsi l = l :=
  stripAnsiFuel_id l.length l h

lemma dropTrailingWS_concat (l : List Char) (c : Char) (hc : isWS c = false) :
    dropTrailingWS (l ++ [c]) = l ++ [c] := by
  unfold dropTrailingWS
  rw [List.reverse_concat, List.dropWhile_cons_of_neg (by simp [hc])]
  simp

lemma isPrefixOf_append_self (a b : List Char) : a.isPrefixOf (a ++ b) = true :=
  List.isPrefixOf_iff_prefix.mpr (List.prefix_append a b)

lemma isPrefixOf_cons_neq (a b : Char) (as bs : List Char) (h : (a == b) = false) :
    List.isPrefixOf (a :: as) (b :: bs) = false := by
  rw [Bool.eq_false_iff]
  intro hcontra
  have hp := List.isPrefixOf_iff_prefix.mp hcontra
  rw [List.cons_prefix_cons] at hp
  exact (beq_eq_false_iff_ne.mp h) hp.1

lemma eq_of_isPrefixOf_append {a u : List Char} (r : List Char)
    (hlen : a.length = u.length) (h : a.isPrefixOf (u ++ r) = true) : a = u := by
  have hp : a <+: u ++ r := List.isPrefixOf_iff_prefix.mp h
  have := List.prefix_iff_eq_take.mp hp
  rwa [hlen, List.take_left] at this

lemma isWS_eq_false_of_isNumChar {c : Char} (h : isNumChar c = true) : isWS c = false := by
  by_contra hw
  have hw2 : isWS c = true := by
    cases hcase : isWS c
    · exact absurd hcase hw
    · rfl
  unfold isWS at hw2
  simp only [Bool.or_eq_true, beq_iff_eq] at hw2
  rcases hw2 with ((((h1 | h1) | h1) | h1) | h1) | h1 <;>
    (subst h1; exact absurd h (by decide))

lemma ne_esc_of_isNumChar {c : Char} (h : isNumChar c = true) : c ≠ '\x1b' := by
  intro hh
  subst hh
  exact absurd h (by decide)

/-! ## The end-anchored value-unit matcher -/

lemma matchOne_hit (u v r : List Char) (hv : v ≠ [])
    (hvn : ∀ ch ∈ v, isNumChar ch = true) (hr : goodTail r) :
    matchOne (u.reverse ++ ' ' :: (v.reverse ++ r)) u = some (v, u) := by
  obtain ⟨cv, tv, hvr⟩ : ∃ b L, v.reverse = b :: L :=
    List.exists_cons_of_ne_nil (by simpa using hv)
  have hcv : isNumChar cv = true := hvn cv (by
    have : cv ∈ v.reverse := by rw [hvr]; exact List.mem_cons_self cv tv
    exact List.mem_reverse.mp this)
  have hcvws : ¬isWS cv = true := by simp [isWS_eq_false_of_isNumChar hcv]
  have hpre := isPrefixOf_append_self u.reverse (' ' :: (v.reverse ++ r))
  have hrest : (u.reverse ++ ' ' :: (v.reverse ++ r)).drop u.reverse.length
      = ' ' :: (v.reverse ++ r) := List.drop_left _ _
  have htake : List.takeWhile isWS (' ' :: (v.reverse ++ r))
      = ' ' :: List.takeWhile isWS (v.reverse ++ r) :=
    List.takeWhile_cons_of_pos (by decide)
  have hdrop : List.dropWhile isWS (' ' :: (v.reverse ++ r))
      = v.reverse ++ r := by
    rw [List.dropWhile_cons_of_pos (by decide), hvr, List.cons_append,
      List.dropWhile_cons_of_neg hcvws]
  have hr0 : List.takeWhile isNumChar r = [] := by
    rcases hr with rfl | ⟨c2, t2, rfl, hc2⟩
    · rfl
    · exact List.takeWhile_cons_of_neg (by simp [hc2])
  have hnum : List.takeWhile isNumChar (v.reverse ++ r) = v.reverse := by
    rw [List.takeWhile_append_of_pos (fun a ha => hvn a (List.mem_reverse.mp ha)), hr0,
      List.append_nil]
  have hwsne : (' ' :: List.takeWhile isWS (v.reverse ++ r)).isEmpty = false := rfl
  have hnumne : v.reverse.isEmpty = false := by rw [hvr]; rfl
  unfold matchOne
  rw [if_pos hpre]
  simp only [hrest, htake, hdrop, hnum, hwsne, hnumne, Bool.false_eq_true, if_false]
  simp

lemma matchOne_none_of_ne {u w : List Char} (tail : List Char)
    (hlen : w.length = u.length) (hne : w ≠ u) :
    matchOne (u.reverse ++ tail) w = none := by
  have hp : w.reverse.isPrefixOf (u.reverse ++ tail) = false := by
    rw [Bool.eq_false_iff]
    intro hcontra
    have := eq_of_isPrefixOf_append tail (by simp [hlen]) hcontra
    exact hne (by simpa using congrArg List.reverse this)
  unfold matchOne
  rw [if_neg (by simp [hp])]

lemma matchOne_none_of_no_suffix {w : List Char} (rs : List Char)
    (hp : w.reverse.isPrefixOf rs = false) : matchOne rs w = none := by
  unfold matchOne
  rw [if_neg (by simp [hp])]

lemma matchTail_none (units : List (List Char)) (rs : List Char)
    (h : ∀ w ∈ units, matchOne rs w = none) : matchTail units rs = none := by
  unfold matchTail
  exact List.findSome?_eq_none_iff.mpr h

lemma matchTail_hit (units : List (List Char)) (u v r : List Char)
    (hu : u ∈ units) (hnd : units.Nodup)
    (hlen : ∀ w ∈ units, w.length = u.length)
    (hv : v ≠ []) (hvn : ∀ ch ∈ v, isNumChar ch = true)
    (hr : goodTail r) :
    matchTail units (u.reverse ++ ' ' :: (v.reverse ++ r)) = some (v, u) := by
  induction units with
  | nil => cases hu
  | cons w ws ih =>
    rcases List.mem_cons.mp hu with hwu | hmem
    · subst hwu
      unfold matchTail
      rw [List.findSome?_cons, matchOne_hit u v r hv hvn hr]
    · have hwne : w ≠ u := by
        rintro rfl
        exact (List.nodup_cons.mp hnd).1 hmem
      have hnone := matchOne_none_of_ne (' ' :: (v.reverse ++ r))
        (hlen w (List.mem_cons_self w ws)) hwne
      have ihs := ih hmem (List.nodup_cons.mp hnd).2
        (fun x hx => hlen x (List.mem_cons_of_mem w hx))
      unfold matchTail at ihs ⊢
      rw [List.findSome?_cons, hnone, ihs]

/-! ## Decomposition of a well-formed line -/

lemma trimWS_dropWhile (l : List Char) : trimWS (l.dropWhile isWS) = trimWS l := by
  unfold trimWS
  rw [dropWhile_idem]

lemma dataTail_wellformed (key mid v u : List Char)
    (hkey : ':' ∉ key) (hmid : '\x1b' ∉ mid)
    (hv : v ≠ []) (hvn : ∀ ch ∈ v, isNumChar ch = true)
    (hesc : '\x1b' ∉ u)
    (hform : ∃ u0 c, u = u0 ++ [c] ∧ isWS c = false) :
    ∃ r, goodTail r ∧
      dataTail (String.mk (key ++ ':' :: (mid ++ ' ' :: (v ++ ' ' :: u))))
        = some (trimWS key, u.reverse ++ ' ' :: (v.reverse ++ r)) := by
  obtain ⟨u0, c, rfl, hc⟩ := hform
  obtain ⟨cv, tv, hvc⟩ := List.exists_cons_of_ne_nil hv
  have hcvn : isNumChar cv = true := hvn cv (by rw [hvc]; exact List.mem_cons_self cv tv)
  have hcvws : ¬isWS cv = true := by simp [isWS_eq_false_of_isNumChar hcvn]
  set dRaw := mid ++ ' ' :: (v ++ ' ' :: (u0 ++ [c])) with hdRaw
  have h1 : List.dropWhile isWS (key ++ ':' :: dRaw) = key.dropWhile isWS ++ ':' :: dRaw :=
    dropWhile_append_cons_neg isWS key ':' dRaw (by decide)
  have hshape : key.dropWhile isWS ++ ':' :: dRaw
      = (key.dropWhile isWS ++ ':' :: (mid ++ ' ' :: (v ++ ' ' :: u0))) ++ [c] := by
    simp [hdRaw, List.append_assoc]
  have h2 : trimWS (key ++ ':' :: dRaw) = key.dropWhile isWS ++ ':' :: dRaw := by
    unfold trimWS
    rw [h1, hshape, dropTrailingWS_concat _ c hc, ← hshape]
  have h3 : splitFirstColon (key.dropWhile isWS ++ ':' :: dRaw) = some (key.dropWhile isWS, dRaw) :=
    splitFirstColon_append _ _ (fun hm => hkey (mem_of_mem_dropWhile hm))
  have hescv : '\x1b' ∉ v := fun hm => (ne_esc_of_isNumChar (hvn _ hm)) rfl
  have hescu0 : '\x1b' ∉ u0 := fun hm => hesc (List.mem_append.mpr (Or.inl hm))
  have hescc : ('\x1b' : Char) ≠ c := fun hm =>
    hesc (List.mem_append.mpr (Or.inr (by rw [hm]; exact List.mem_singleton.mpr rfl)))
  have h5 : stripAnsi dRaw = dRaw := by
    apply stripAnsi_id
    rw [hdRaw]
    intro hm
    rcases List.mem_append.mp hm with hm1 | hm2
    · exact hmid hm1
    · rcases List.mem_cons.mp hm2 with hm3 | hm4
      · exact absurd hm3 (by decide)
      · rcases List.mem_append.mp hm4 with hm5 | hm6
        · exact hescv hm5
        · rcases List.mem_cons.mp hm6 with hm7 | hm8
          · exact absurd hm7 (by decide)
          · rcases List.mem_append.mp hm8 with hm9 | hm10
            · exact hescu0 hm9
            · exact hescc (by simpa using hm10)
  have hdata : (String.mk (key ++ ':' :: dRaw)).data = key ++ ':' :: dRaw := rfl
  cases hmm : List.dropWhile isWS mid with
  | nil =>
    have hall : ∀ a ∈ mid, isWS a = true := List.dropWhile_eq_nil_iff.mp hmm
    have h6a : List.dropWhile isWS dRaw = v ++ ' ' :: (u0 ++ [c]) := by
      rw [hdRaw]
      rw [List.dropWhile_append_of_pos hall, List.dropWhile_cons_of_pos (by decide), hvc]
      rw [List.cons_append, List.dropWhile_cons_of_neg hcvws]
    have hshape3 : v ++ ' ' :: (u0 ++ [c]) = (v ++ ' ' :: u0) ++ [c] := by
      simp [List.append_assoc]
    have h6 : trimWS dRaw = v ++ ' ' :: (u0 ++ [c]) := by
      unfold trimWS
      rw [h6a, hshape3, dropTrailingWS_concat _ c hc, ← hshape3]
    refine ⟨[], Or.inl rfl, ?_⟩
    unfold dataTail
    rw [hdata, h2, h3]
    show some (trimWS (key.dropWhile isWS), (trimWS (stripAnsi dRaw)).reverse) = _
    rw [h5, h6, trimWS_dropWhile]
    simp [List.reverse_append]
  | cons m0 ms =>
    have hne : List.dropWhile isWS mid ≠ [] := by rw [hmm]; simp
    have h6a : List.dropWhile isWS dRaw
        = List.dropWhile isWS mid ++ ' ' :: (v ++ ' ' :: (u0 ++ [c])) := by
      rw [hdRaw]
      exact dropWhile_append_of_head_neg isWS mid _ hne
    have hshape2 : List.dropWhile isWS mid ++ ' ' :: (v ++ ' ' :: (u0 ++ [c]))
        = (List.dropWhile isWS mid ++ ' ' :: (v ++ ' ' :: u0)) ++ [c] := by
      simp [List.append_assoc]
    have h6 : trimWS dRaw = List.dropWhile isWS mid ++ ' ' :: (v ++ ' ' :: (u0 ++ [c])) := by
      unfold trimWS
      rw [h6a, hshape2, dropTrailingWS_concat _ c hc, ← hshape2]
    refine ⟨' ' :: (List.dropWhile isWS mid).reverse,
      Or.inr ⟨' ', (List.dropWhile isWS mid).reverse, rfl, by decide⟩, ?_⟩
    unfold dataTail
    rw [hdata, h2, h3]
    show some (trimWS (key.dropWhile isWS), (trimWS (stripAnsi dRaw)).reverse) = _
    rw [h5, h6, trimWS_dropWhile]
    simp [List.reverse_append]

/-- Evaluation of the parser on a well-formed benchmark line, for each of
the six units: the captured token is exactly `v`; a valid float token
yields the normalized value, an invalid one raises `ValueError`. -/
lemma parse_wellformed (key mid v u : List Char) (hu : u ∈ flopsUnits ++ bwUnits)
    (hkey : ':' ∉ key) (hmid : '\x1b' ∉ mid)
    (hv : v ≠ []) (hvn : ∀ ch ∈ v, isNumChar ch = true) :
    (validFloat v →
      parse_benchmark_line (String.mk (key ++ ':' :: (mid ++ ' ' :: (v ++ ' ' :: u))))
        = .ok (some (String.mk (trimWS key), decValue v * scaleOf u, familyOf u)))
    ∧ (¬validFloat v →
      parse_benchmark_line (String.mk (key ++ ':' :: (mid ++ ' ' :: (v ++ ' ' :: u))))
        = .error .valueError) := by
  rcases List.mem_append.mp hu with hf | hb
  · fin_cases hf
    · obtain ⟨r, hr, hdt⟩ := dataTail_wellformed key mid v ['G','F','L','O','P','S'] hkey hmid
        hv hvn (by decide) ⟨['G','F','L','O','P'], 'S', rfl, by decide⟩
      have hmt := matchTail_hit flopsUnits ['G','F','L','O','P','S'] v r (by decide) (by decide)
        (by decide) hv hvn hr
      constructor
      · intro hvf
        have hpf : pyFloat? v = some (decValue v) := by
          unfold pyFloat?
          rw [if_pos hvf]
        simp only [parse_benchmark_line, hdt, hmt, hpf]
        rw [if_neg (by decide), if_neg (by decide),
          show scaleOf ['G','F','L','O','P','S'] = 1 from rfl, mul_one]
        rfl
      · intro hnvf
        have hpf : pyFloat? v = none := by
          unfold pyFloat?
          rw [if_neg hnvf]
        simp only [parse_benchmark_line, hdt, hmt, hpf]
    · obtain ⟨r, hr, hdt⟩ := dataTail_wellformed key mid v ['T','F','L','O','P','S'] hkey hmid
        hv hvn (by decide) ⟨['T','F','L','O','P'], 'S', rfl, by decide⟩
      have hmt := matchTail_hit flopsUnits ['T','F','L','O','P','S'] v r (by decide) (by decide)
        (by decide) hv hvn hr
      constructor
      · intro hvf
        have hpf : pyFloat? v = some (decValue v) := by
          unfold pyFloat?
          rw [if_pos hvf]
        simp only [parse_benchmark_line, hdt, hmt, hpf]
        rw [if_pos (by decide), show scaleOf ['T','F','L','O','P','S'] = 1000 from rfl]
        rfl
      · intro hnvf
        have hpf : pyFloat? v = none := by
          unfold pyFloat?
          rw [if_neg hnvf]
        simp only [parse_benchmark_line, hdt, hmt, hpf]
    · obtain ⟨r, hr, hdt⟩ := dataTail_wellformed key mid v ['M','F','L','O','P','S'] hkey hmid
        hv hvn (by decide) ⟨['M','F','L','O','P'], 'S', rfl, by decide⟩
      have hmt := matchTail_hit flopsUnits ['M','F','L','O','P','S'] v r (by decide) (by decide)
        (by decide) hv hvn hr
      constructor
      · intro hvf
        have hpf : pyFloat? v = some (decValue v) := by
          unfold pyFloat?
          rw [if_pos hvf]
        simp only [parse_benchmark_line, hdt, hmt, hpf]
        rw [if_neg (by decide), if_pos (by decide),
          show scaleOf ['M','F','L','O','P','S'] = 1/1000 from rfl, div_eq_mul_one_div]
        rfl
      · intro hnvf
        have hpf : pyFloat? v = none := by
          unfold pyFloat?
          rw [if_neg hnvf]
        simp only [parse_benchmark_line, hdt, hmt, hpf]
  · fin_cases hb
    · obtain ⟨r, hr, hdt⟩ := dataTail_wellformed key mid v ['G','B','/','s'] hkey hmid
        hv hvn (by decide) ⟨['G','B','/'], 's', rfl, by decide⟩
      have hmt := matchTail_hit bwUnits ['G','B','/','s'] v r (by decide) (by decide)
        (by decide) hv hvn hr
      have hmiss : matchTail flopsUnits (['G','B','/','s'].reverse ++ ' ' :: (v.reverse ++ r))
          = none := by
        apply matchTail_none
        intro w hw
        fin_cases hw <;>
          exact matchOne_none_of_no_suffix _ (isPrefixOf_cons_neq 'S' 's' _ _ (by decide))
      constructor
      · intro hvf
        have hpf : pyFloat? v = some (decValue v) := by
          unfold pyFloat?
          rw [if_pos hvf]
        simp only [parse_benchmark_line, hdt, hmiss, hmt, hpf]
        rw [if_neg (by decide), if_neg (by decide),
          show scaleOf ['G','B','/','s'] = 1 from rfl, mul_one]
        rfl
      · intro hnvf
        have hpf : pyFloat? v = none := by
          unfold pyFloat?
          rw [if_neg hnvf]
        simp only [parse_benchmark_line, hdt, hmiss, hmt, hpf]
    · obtain ⟨r, hr, hdt⟩ := dataTail_wellformed key mid v ['M','B','/','s'] hkey hmid
        hv hvn (by decide) ⟨['M','B','/'], 's', rfl, by decide⟩
      have hmt := matchTail_hit bwUnits ['M','B','/','s'] v r (by decide) (by decide)
        (by decide) hv hvn hr
      have hmiss : matchTail flopsUnits (['M','B','/','s'].reverse ++ ' ' :: (v.reverse ++ r))
          = none := by
        apply matchTail_none
        intro w hw
        fin_cases hw <;>
          exact matchOne_none_of_no_suffix _ (isPrefixOf_cons_neq 'S' 's' _ _ (by decide))
      constructor
      · intro hvf
        have hpf : pyFloat? v = some (decValue v) := by
          unfold pyFloat?
          rw [if_pos hvf]
        simp only [parse_benchmark_line, hdt, hmiss, hmt, hpf]
        rw [if_neg (by decide), if_pos (by decide),
          show scaleOf ['M','B','/','s'] = 1/1000 from rfl, div_eq_mul_one_div]
        rfl
      · intro hnvf
        have hpf : pyFloat? v = none := by
          unfold pyFloat?
          rw [if_neg hnvf]
        simp only [parse_benchmark_line, hdt, hmiss, hmt, hpf]
    · obtain ⟨r, hr, hdt⟩ := dataTail_wellformed key mid v ['T','B','/','s'] hkey hmid
        hv hvn (by decide) ⟨['T','B','/'], 's', rfl, by decide⟩
      have hmt := matchTail_hit bwUnits ['T','B','/','s'] v r (by decide) (by decide)
        (by decide) hv hvn hr
      have hmiss : matchTail flopsUnits (['T','B','/','s'].reverse ++ ' ' :: (v.reverse ++ r))
          = none := by
        apply matchTail_none
        intro w hw
        fin_cases hw <;>
          exact matchOne_none_of_no_suffix _ (isPrefixOf_cons_neq 'S' 's' _ _ (by decide))
      constructor
      · intro hvf
        have hpf : pyFloat? v = some (decValue v) := by
          unfold pyFloat?
          rw [if_pos hvf]
        simp only [parse_benchmark_line, hdt, hmiss, hmt, hpf]
        rw [if_pos (by decide), show scaleOf ['T','B','/','s'] = 1000 from rfl]
        rfl
      · intro hnvf
        have hpf : pyFloat? v = none := by
          unfold pyFloat?
          rw [if_neg hnvf]
        simp only [parse_benchmark_line, hdt, hmiss, hmt, hpf]

/-! ## Non-matching lines -/

lemma mem_of_mem_trimWS {c : Char} {l : List Char} (h : c ∈ trimWS l) : c ∈ l := by
  unfold trimWS dropTrailingWS at h
  have h1 := List.mem_reverse.mp h
  have h2 := mem_of_mem_dropWhile h1
  have h3 := List.mem_reverse.mp h2
  exact mem_of_mem_dropWhile h3

lemma parse_no_colon (line : String) (h : ':' ∉ line.data) :
    parse_benchmark_line line = .ok none := by
  have hs : splitFirstColon (trimWS line.data) = none :=
    splitFirstColon_none _ (fun hm => h (mem_of_mem_trimWS hm))
  simp only [parse_benchmark_line, dataTail, hs]

lemma parse_no_unit (line : String) (k rs : List Char)
    (hdt : dataTail line = some (k, rs))
    (hflops : ∀ w ∈ flopsUnits, w.reverse.isPrefixOf rs = false)
    (hbw : ∀ w ∈ bwUnits, w.reverse.isPrefixOf rs = false) :
    parse_benchmark_line line = .ok none := by
  have h1 : matchTail flopsUnits rs = none :=
    matchTail_none _ _ (fun w hw => matchOne_none_of_no_suffix _ (hflops w hw))
  have h2 : matchTail bwUnits rs = none :=
    matchTail_none _ _ (fun w hw => matchOne_none_of_no_suffix _ (hbw w hw))
  simp only [parse_benchmark_line, hdt, h1, h2]

/-! ## The comparison loop -/

lemma mkEntry_key (b c : ResultSet) (k : String) (e : CompEntry)
    (h : mkEntry b c k = .ok e) : e.key = k := by
  cases hb : (dictGet b k).map Prod.fst with
  | none =>
    simp only [mkEntry, hb] at h
    cases h
    rfl
  | some x =>
    cases hc : (dictGet c k).map Prod.fst with
    | none =>
      simp only [mkEntry, hb, hc] at h
      cases h
      rfl
    | some y =>
      simp only [mkEntry, hb, hc] at h
      by_cases hx : x = 0
      · rw [if_pos hx] at h
        cases h
      · rw [if_neg hx] at h
        cases h
        rfl

lemma mkEntry_error_elim (b c : ResultSet) (k : String) (e : PyErr)
    (h : mkEntry b c k = .error e) : e = .zeroDivisionError := by
  cases hb : (dictGet b k).map Prod.fst with
  | none =>
    simp only [mkEntry, hb] at h
    cases h
  | some x =>
    cases hc : (dictGet c k).map Prod.fst with
    | none =>
      simp only [mkEntry, hb, hc] at h
      cases h
    | some y =>
      simp only [mkEntry, hb, hc] at h
      by_cases hx : x = 0
      · rw [if_pos hx] at h
        cases h
        rfl
      · rw [if_neg hx] at h
        cases h

lemma mkEntry_zero (b c : ResultSet) (k : String) (p q : ℚ × String)
    (hb : dictGet b k = some p) (hp : p.1 = 0) (hc : dictGet c k = some q) :
    mkEntry b c k = .error .zeroDivisionError := by
  simp only [mkEntry, hb, hc, Option.map_some']
  rw [if_pos hp]

lemma mkEntry_change (b c : ResultSet) (k : String) (e : CompEntry)
    (h : mkEntry b c k = .ok e) :
    (∀ x y, e.baseline = some x → e.compare = some y → e.change = (y - x) / x * 100)
    ∧ ((e.baseline = none ∨ e.compare = none) → e.change = 0) := by
  cases hb : (dictGet b k).map Prod.fst with
  | none =>
    simp only [mkEntry, hb] at h
    cases h
    refine ⟨?_, fun _ => rfl⟩
    intro x y hx hy
    cases hx
  | some x0 =>
    cases hc : (dictGet c k).map Prod.fst with
    | none =>
      simp only [mkEntry, hb, hc] at h
      cases h
      refine ⟨?_, fun _ => rfl⟩
      intro x y hx hy
      cases hy
    | some y0 =>
      simp only [mkEntry, hb, hc] at h
      by_cases hx0 : x0 = 0
      · rw [if_pos hx0] at h
        cases h
      · rw [if_neg hx0] at h
        cases h
        constructor
        · intro x y hx hy
          cases hx
          cases hy
          rfl
        · intro hd
          rcases hd with hd | hd <;> cases hd

lemma mapME_ok_mem {f : String → Except PyErr CompEntry} {ks : List String}
    {rows : List CompEntry} (h : mapME f ks = .ok rows) :
    ∀ e ∈ rows, ∃ k ∈ ks, f k = .ok e := by
  induction ks generalizing rows with
  | nil =>
    unfold mapME at h
    cases h
    intro e he
    cases he
  | cons k ks ih =>
    unfold mapME at h
    cases hfk : f k with
    | error e0 =>
      rw [hfk] at h
      cases h
    | ok e0 =>
      rw [hfk] at h
      cases hrec : mapME f ks with
      | error e1 =>
        rw [hrec] at h
        cases h
      | ok es =>
        rw [hrec] at h
        cases h
        intro e he
        rcases List.mem_cons.mp he with rfl | hmem
        · exact ⟨k, List.mem_cons_self k ks, hfk⟩
        · obtain ⟨k2, hk2, hfk2⟩ := ih hrec e hmem
          exact ⟨k2, List.mem_cons_of_mem k hk2, hfk2⟩

lemma mapME_keys {b c : ResultSet} {ks : List String} {rows : List CompEntry}
    (h : mapME (mkEntry b c) ks = .ok rows) : rows.map CompEntry.key = ks := by
  induction ks generalizing rows with
  | nil =>
    unfold mapME at h
    cases h
    rfl
  | cons k ks ih =>
    unfold mapME at h
    cases hfk : mkEntry b c k with
    | error e0 =>
      rw [hfk] at h
      cases h
    | ok e0 =>
      rw [hfk] at h
      cases hrec : mapME (mkEntry b c) ks with
      | error e1 =>
        rw [hrec] at h
        cases h
      | ok es =>
        rw [hrec] at h
        cases h
        simp only [List.map_cons]
        rw [mkEntry_key b c k e0 hfk, ih hrec]

lemma mapME_error_of_mem {f : String → Except PyErr CompEntry} {ks : List String} {k : String}
    {e : PyErr} (hk : k ∈ ks) (hf : f k = .error e)
    (huniq : ∀ k2 e2, f k2 = .error e2 → e2 = e) :
    mapME f ks = .error e := by
  induction ks with
  | nil => cases hk
  | cons k0 ks ih =>
    unfold mapME
    cases hfk : f k0 with
    | error e0 =>
      rw [huniq k0 e0 hfk]
    | ok e0 =>
      have hkm : k ∈ ks := by
        rcases List.mem_cons.mp hk with rfl | hm
        · rw [hf] at hfk
          cases hfk
        · exact hm
      rw [ih hkm]

/-! ## The sorted key union -/

lemma all_keys_sorted (b c : ResultSet) :
    List.Sorted (fun x y : String => x < y) (all_keys b c) := by
  have hs : List.Sorted (fun x y : String => x ≤ y) (all_keys b c) :=
    List.sorted_insertionSort _ _
  have hp := List.perm_insertionSort (fun x y : String => x ≤ y)
    ((b.map Prod.fst ++ c.map Prod.fst).dedup)
  have hnd : (all_keys b c).Nodup := hp.nodup_iff.mpr (List.nodup_dedup _)
  exact List.Sorted.lt_of_le hs hnd

lemma all_keys_mem (b c : ResultSet) (k : String) :
    k ∈ all_keys b c ↔ k ∈ b.map Prod.fst ∨ k ∈ c.map Prod.fst := by
  unfold all_keys
  rw [(List.perm_insertionSort _ _).mem_iff, List.mem_dedup, List.mem_append]

lemma mem_keys_of_dictGet {d : ResultSet} {k : String} {p : ℚ × String}
    (h : dictGet d k = some p) : k ∈ d.map Prod.fst := by
  unfold dictGet at h
  cases hf : d.find? (fun q => q.1 == k) with
  | none =>
    rw [hf] at h
    cases h
  | some q =>
    have hqk := List.find?_some hf
    have hm : q ∈ d := List.mem_of_find?_eq_some hf
    have hq : q.1 = k := by simpa using hqk
    rw [← hq]
    exact List.mem_map_of_mem Prod.fst hm

lemma ne_nil_of_dictGet {d : ResultSet} {k : String} {p : ℚ × String}
    (h : dictGet d k = some p) : d ≠ [] := by
  intro hd
  subst hd
  simp [dictGet] at h

/-! ## Commit-id extraction -/

lemma extract_commit_id_hit (idc restc : List Char) (hne : idc ≠ []) (hdot : '.' ∉ idc) :
    extract_commit_id (String.mk ("test-backend-ops-perf-".data
        ++ (idc ++ '.' :: ('l' :: ('o' :: ('g' :: restc)))))) = String.mk idc := by
  have hdot2 : ∀ ch ∈ idc, (ch != '.') = true := by
    intro ch hm
    simp only [bne_iff_ne, ne_eq]
    intro hh
    exact hdot (hh ▸ hm)
  have ht : List.takeWhile (fun ch => ch != '.') (idc ++ '.' :: ('l' :: ('o' :: ('g' :: restc))))
      = idc := by
    rw [List.takeWhile_append_of_pos hdot2, List.takeWhile_cons_of_neg (by decide)]
    simp
  have hie : idc.isEmpty = false := by
    cases idc with
    | nil => exact absurd rfl hne
    | cons a l => rfl
  simp only [extract_commit_id]
  rw [if_pos (isPrefixOf_append_self _ _), List.drop_left, ht]
  rw [if_neg (by simp [hie]), List.drop_left,
    if_pos (show ['.', 'l', 'o', 'g'].isPrefixOf ('.' :: ('l' :: ('o' :: ('g' :: restc)))) = true
      from isPrefixOf_append_self ['.', 'l', 'o', 'g'] restc)]

lemma extract_commit_id_no_prefix (s : String)
    (h : "test-backend-ops-perf-".data.isPrefixOf s.data = false) :
    extract_commit_id s = "" := by
  simp only [extract_commit_id]
  rw [if_neg (by simp [h])]

/-! ## The main pipeline -/

lemma compute_comparisons_zero_baseline (b c : ResultSet) (k : String) (p q : ℚ × String)
    (hb : dictGet b k = some p) (hp : p.1 = 0) (hc : dictGet c k = some q) :
    compute_comparisons b c = .error .zeroDivisionError := by
  unfold compute_comparisons
  apply mapME_error_of_mem
    ((all_keys_mem b c k).mpr (Or.inl (mem_keys_of_dictGet hb)))
    (mkEntry_zero b c k p q hb hp hc)
  intro k2 e2 h2
  exact mkEntry_error_elim b c k2 e2 h2

lemma runMain_crash_zero (bl cl : List String) (b c : ResultSet)
    (hlb : load_results bl = .ok b) (hlc : load_results cl = .ok c)
    (k : String) (p q : ℚ × String)
    (hb : dictGet b k = some p) (hp : p.1 = 0) (hc : dictGet c k = some q) :
    runMain (some bl) (some cl) = .crash .zeroDivisionError := by
  have hbne : ¬(b = [] ∨ c = []) := by
    rintro (rfl | rfl)
    · exact ne_nil_of_dictGet hb rfl
    · exact ne_nil_of_dictGet hc rfl
  simp only [runMain, hlb, hlc]
  rw [if_neg hbne, compute_comparisons_zero_baseline b c k p q hb hp hc]

lemma runMain_report (bl cl : List String) (b c : ResultSet) (rows : List CompEntry)
    (hlb : load_results bl = .ok b) (hlc : load_results cl = .ok c)
    (hbne : b ≠ []) (hcne : c ≠ [])
    (hcc : compute_comparisons b c = .ok rows) :
    runMain (some bl) (some cl) = .wroteReport rows := by
  simp only [runMain, hlb, hlc]
  rw [if_neg (by rintro (rfl | rfl) <;> simp_all), hcc]

lemma runMain_abort (bl cl : List String) (b c : ResultSet)
    (hlb : load_results bl = .ok b) (hlc : load_results cl = .ok c)
    (h : b = [] ∨ c = []) :
    runMain (some bl) (some cl) = .abortEmpty := by
  simp only [runMain, hlb, hlc]
  rw [if_pos h]

/-! ## Decimal rendering -/

lemma natCharsAux_congr : ∀ f1 f2 n, n < f1 → n < f2 → natCharsAux f1 n = natCharsAux f2 n := by
  intro f1
  induction f1 with
  | zero =>
    intro f2 n h1 h2
    omega
  | succ f ih =>
    intro f2 n h1 h2
    cases f2 with
    | zero => omega
    | succ g =>
      by_cases h10 : n < 10
      · simp [natCharsAux, h10]
      · have hd : n / 10 < n := Nat.div_lt_self (by omega) (by omega)
        simp only [natCharsAux, if_neg h10]
        rw [ih g (n / 10) (by omega) (by omega)]

lemma natChars_eq_fuel (f n : Nat) (h : n < f) : natCharsAux f n = natChars n :=
  natCharsAux_congr f (n + 1) n h (Nat.lt_succ_self n)

lemma digitChar_isDigit (k : Nat) (h : k < 10) : (Nat.digitChar k).isDigit = true := by
  interval_cases k <;> decide

lemma natCharsAux_digits : ∀ f n, n < f → ∀ c ∈ natCharsAux f n, c.isDigit = true := by
  intro f
  induction f with
  | zero =>
    intro n h
    omega
  | succ f ih =>
    intro n h c hc
    by_cases h10 : n < 10
    · simp only [natCharsAux, if_pos h10] at hc
      rcases List.mem_singleton.mp hc with rfl
      exact digitChar_isDigit n h10
    · have hd : n / 10 < n := Nat.div_lt_self (by omega) (by omega)
      simp only [natCharsAux, if_neg h10] at hc
      rcases List.mem_append.mp hc with hc1 | hc2
      · exact ih (n / 10) (by omega) c hc1
      · rcases List.mem_singleton.mp hc2 with rfl
        exact digitChar_isDigit (n % 10) (Nat.mod_lt n (by omega))

lemma natChars_digits (n : Nat) : ∀ c ∈ natChars n, c.isDigit = true :=
  natCharsAux_digits (n + 1) n (Nat.lt_succ_self n)

lemma pad2_digits (n : Nat) : ∀ c ∈ pad2 n, c.isDigit = true := by
  unfold pad2
  by_cases h : n < 10
  · rw [if_pos h]
    intro c hc
    rcases List.mem_cons.mp hc with rfl | hc2
    · decide
    · exact natChars_digits n c hc2
  · rw [if_neg h]
    exact natChars_digits n

lemma natChars_single (n : Nat) (h : n < 10) : natChars n = [Nat.digitChar n] := by
  simp [natChars, natCharsAux, h]

lemma natChars_two (n : Nat) (h1 : 10 ≤ n) (h2 : n < 100) :
    natChars n = [Nat.digitChar (n / 10), Nat.digitChar (n % 10)] := by
  have h1n : ¬n < 10 := by omega
  have hd1 : n / 10 < 10 := by omega
  have hdn : n / 10 < n := Nat.div_lt_self (by omega) (by omega)
  unfold natChars
  rw [show natCharsAux (n + 1) n = natCharsAux n (n / 10) ++ [Nat.digitChar (n % 10)] from by
    simp [natCharsAux, h1n]]
  rw [natChars_eq_fuel n (n / 10) hdn, natChars_single (n / 10) hd1]
  rfl

lemma pad2_length (n : Nat) (h : n < 100) : (pad2 n).length = 2 := by
  unfold pad2
  by_cases h1 : n < 10
  · rw [if_pos h1, natChars_single n h1]
    rfl
  · rw [if_neg h1, natChars_two n (by omega) h]
    rfl

lemma takeWhile_all_then_stop {p : Char → Bool} (a : List Char) (d : Char) (r : List Char)
    (ha : ∀ c ∈ a, p c = true) (hd : p d = false) :
    List.takeWhile p (a ++ d :: r) = a := by
  rw [List.takeWhile_append_of_pos ha, List.takeWhile_cons_of_neg (by simp [hd])]
  simp

lemma afterLastDot_of_shape (A P : List Char) (hP : '.' ∉ P) :
    afterLastDot (String.mk (A ++ '.' :: P)) = P := by
  unfold afterLastDot
  have hdata : (String.mk (A ++ '.' :: P)).data = A ++ '.' :: P := rfl
  have hPrev : ∀ c ∈ P.reverse, (c != '.') = true := by
    intro c hc
    simp only [bne_iff_ne, ne_eq]
    intro hh
    exact hP (hh ▸ List.mem_reverse.mp hc)
  rw [hdata, List.reverse_append, List.reverse_cons, List.append_assoc, List.singleton_append]
  rw [takeWhile_all_then_stop P.reverse '.' A.reverse hPrev (by decide)]
  exact List.reverse_reverse P

lemma fixed2_shape (x : ℚ) :
    fixed2 x = String.mk (((if x < 0 then ['-'] else [])
        ++ natChars ((roundHalfEven (x * 100)).natAbs / 100))
      ++ '.' :: pad2 ((roundHalfEven (x * 100)).natAbs % 100)) := rfl

lemma dot_not_mem_pad2 (n : Nat) : '.' ∉ pad2 n := by
  intro hm
  have := pad2_digits n '.' hm
  exact absurd this (by decide)

lemma afterLastDot_fixed2 (x : ℚ) :
    afterLastDot (fixed2 x) = pad2 ((roundHalfEven (x * 100)).natAbs % 100) := by
  rw [fixed2_shape x]
  exact afterLastDot_of_shape _ _ (dot_not_mem_pad2 _)

lemma fixed2_head_neg (x : ℚ) (hx : x < 0) : (fixed2 x).data.head? = some '-' := by
  rw [fixed2_shape x, if_pos hx]
  rfl

/-! ## Claims -/

unseal Nat.gcd Rat.add Rat.sub Rat.mul Rat.inv

/-- C1 (counterexample): the run aborts without writing a report as soon
as at least one result set is empty — here the baseline set is non-empty
and the compare set is empty, yet the pipeline does not write a report —
and when both sets are empty the exit status is 0, not non-zero. -/
theorem c1_counterexample :
    runMain (some ["a: 1 GFLOPS"]) (some ["junk"]) = .abortEmpty
      ∧ reportOf (runMain (some ["a: 1 GFLOPS"]) (some ["junk"])) = none
      ∧ runMain (some []) (some []) = .abortEmpty
      ∧ exitCode (runMain (some []) (some [])) = 0 :=
  ⟨by decide, by decide, by decide, by decide⟩

/-- C1 (amended): the run aborts before writing a report exactly when at
least one of the two loaded result sets is empty after parsing; in that
case an error message is emitted but the process exit status is zero
(`main` merely returns), and whenever both result sets are non-empty the
pipeline proceeds to write the report (once the comparison computation
finishes without an exception). -/
theorem c1_empty_abort_behavior (bl cl : List String) (rb rc : ResultSet)
    (hlb : load_results bl = .ok rb) (hlc : load_results cl = .ok rc) :
    ((rb = [] ∨ rc = []) →
      runMain (some bl) (some cl) = .abortEmpty
        ∧ exitCode (runMain (some bl) (some cl)) = 0
        ∧ reportOf (runMain (some bl) (some cl)) = none
        ∧ errorSurfaced (runMain (some bl) (some cl)) = true)
    ∧ (rb ≠ [] → rc ≠ [] → ∀ rows, compute_comparisons rb rc = .ok rows →
        runMain (some bl) (some cl) = .wroteReport rows) := by
  constructor
  · intro h
    have hr := runMain_abort bl cl rb rc hlb hlc h
    rw [hr]
    exact ⟨rfl, rfl, rfl, rfl⟩
  · intro h1 h2 rows hcc
    exact runMain_report bl cl rb rc rows hlb hlc h1 h2 hcc

theorem c1_empty_abort_behavior_witness :
    runMain (some ["a: 1 GFLOPS"]) (some []) = .abortEmpty
      ∧ exitCode (runMain (some ["a: 1 GFLOPS"]) (some [])) = 0 := by
  have h := (c1_empty_abort_behavior ["a: 1 GFLOPS"] [] [("a", ((1 : ℚ), "GFLOPS"))] []
    (by decide) (by decide)).1 (Or.inr rfl)
  exact ⟨h.1, h.2.1⟩

/-- C2: evaluation of the code at the failing input.  On the line
`"X: 1.2.3 GFLOPS"` the regex captures the token `1.2.3`, and
`float("1.2.3")` raises an uncaught `ValueError`, contradicting the
function's own docstring, which promises `(None, None, None)` whenever
parsing fails. -/
theorem c2_invalid_float_raises :
    parse_benchmark_line "X: 1.2.3 GFLOPS" = .error .valueError
      ∧ parse_benchmark_line "X: 1.2.3 GFLOPS" ≠ .ok none :=
  ⟨by decide, by decide⟩

/-- C3 (counterexample): the line `"Y: . GFLOPS"` is not well-formed (its
candidate numeric token `.` is not a number), so the claim requires the
no-match result, but the parser raises `ValueError` instead. -/
theorem c3_counterexample :
    parse_benchmark_line "Y: . GFLOPS" = .error .valueError
      ∧ parse_benchmark_line "Y: . GFLOPS" ≠ .ok none :=
  ⟨by decide, by decide⟩

/-- C3 (amended): for every well-formed line `<key>: <junk> <v> <unit>`
whose last token is one of the six units and whose value token is a valid
float literal, the parser returns exactly the trimmed key and the value
normalized by the scale table (TFLOPS and TB/s times 1000, MFLOPS and
MB/s divided by 1000, GFLOPS and GB/s unchanged); if the value token
(digits and dots) is not a valid float literal, the parser raises
`ValueError` instead; a line without a colon, and a line whose stripped
data part does not end in any of the six units, yield the no-match
result. -/
theorem c3_parse_line (key mid v u : List Char) (line : String) (k rs : List Char) :
    (u ∈ flopsUnits ++ bwUnits → ':' ∉ key → '\x1b' ∉ mid → v ≠ [] →
      (∀ ch ∈ v, isNumChar ch = true) → validFloat v →
      parse_benchmark_line (String.mk (key ++ ':' :: (mid ++ ' ' :: (v ++ ' ' :: u))))
        = .ok (some (String.mk (trimWS key), decValue v * scaleOf u, familyOf u)))
    ∧ (u ∈ flopsUnits ++ bwUnits → ':' ∉ key → '\x1b' ∉ mid → v ≠ [] →
      (∀ ch ∈ v, isNumChar ch = true) → ¬validFloat v →
      parse_benchmark_line (String.mk (key ++ ':' :: (mid ++ ' ' :: (v ++ ' ' :: u))))
        = .error .valueError)
    ∧ (':' ∉ line.data → parse_benchmark_line line = .ok none)
    ∧ (dataTail line = some (k, rs) →
      (∀ w ∈ flopsUnits, w.reverse.isPrefixOf rs = false) →
      (∀ w ∈ bwUnits, w.reverse.isPrefixOf rs = false) →
      parse_benchmark_line line = .ok none) := by
  refine ⟨?_, ?_, ?_, ?_⟩
  · intro hu h1 h2 h3 h4 h5
    exact (parse_wellformed key mid v u hu h1 h2 h3 h4).1 h5
  · intro hu h1 h2 h3 h4 h5
    exact (parse_wellformed key mid v u hu h1 h2 h3 h4).2 h5
  · exact parse_no_colon line
  · exact parse_no_unit line k rs

theorem c3_parse_line_witness :
    parse_benchmark_line (String.mk ("MUL_MAT(f32)".data
        ++ ':' :: (" 744 runs - 134.48 MFLOP/run -".data
          ++ ' ' :: ("81.01".data ++ ' ' :: ['G','F','L','O','P','S']))))
      = .ok (some (String.mk (trimWS "MUL_MAT(f32)".data),
          decValue "81.01".data * scaleOf ['G','F','L','O','P','S'],
          familyOf ['G','F','L','O','P','S']))
    ∧ parse_benchmark_line "no colon here" = .ok none
    ∧ parse_benchmark_line "k: hello" = .ok none := by
  refine ⟨?_, ?_, ?_⟩
  · exact (c3_parse_line "MUL_MAT(f32)".data " 744 runs - 134.48 MFLOP/run -".data
      "81.01".data ['G','F','L','O','P','S'] "x" [] []).1
      (by decide) (by decide) (by decide) (by decide) (by decide) (by decide)
  · exact (c3_parse_line [] [] [] [] "no colon here" [] []).2.2.1 (by decide)
  · exact (c3_parse_line [] [] [] [] "k: hello" ['k'] ['o','l','l','e','h']).2.2.2
      (by decide) (by decide) (by decide)

/-- C4 (counterexample): the filename `test-backend-ops-perf-a.b.log` is of
the claimed form with `<id> = "a.b"` (everything between the literal
prefix and the final dot), yet `extract_commit_id` returns the empty
string, because `[^.]+` cannot span a dot. -/
theorem c4_counterexample :
    extract_commit_id "test-backend-ops-perf-a.b.log" = ""
      ∧ extract_commit_id "test-backend-ops-perf-a.b.log" ≠ "a.b" :=
  ⟨by decide, by decide⟩

/-- C4 (amended): `extract_commit_id` returns `<id>` when the file name is
the literal prefix followed by a non-empty dot-free `<id>` immediately
followed by `.log` (anything after `.log` is ignored, since `re.match` is
not anchored at the end); a name that does not start with the prefix
yields the empty string, as do `results.log` and the dotted-id name
`test-backend-ops-perf-a.b.log`. -/
theorem c4_extract_commit_id (idc restc : List Char) (s : String) :
    (idc ≠ [] → '.' ∉ idc →
      extract_commit_id (String.mk ("test-backend-ops-perf-".data
          ++ (idc ++ '.' :: ('l' :: ('o' :: ('g' :: restc)))))) = String.mk idc)
    ∧ ("test-backend-ops-perf-".data.isPrefixOf s.data = false → extract_commit_id s = "")
    ∧ extract_commit_id "results.log" = ""
    ∧ extract_commit_id "test-backend-ops-perf-a.b.log" = "" :=
  ⟨fun h1 h2 => extract_commit_id_hit idc restc h1 h2,
    fun h => extract_commit_id_no_prefix s h, by decide, by decide⟩

theorem c4_extract_commit_id_witness :
    extract_commit_id (String.mk ("test-backend-ops-perf-".data
        ++ (['a','b','c','1','2','3','4'] ++ '.' :: ('l' :: ('o' :: ('g' :: []))))))
      = String.mk ['a','b','c','1','2','3','4']
    ∧ extract_commit_id "results.log" = "" :=
  ⟨(c4_extract_commit_id ['a','b','c','1','2','3','4'] [] "results.log").1
      (by decide) (by decide),
    (c4_extract_commit_id ['a','b','c','1','2','3','4'] [] "results.log").2.1 (by decide)⟩

/-- C5: for every entry of the comparison sequence, `change` equals
`(compare - baseline) / baseline * 100` when both values are present and
`0` when either side is absent.  (When both are present, the baseline is
necessarily non-zero: a zero baseline raises `ZeroDivisionError` and no
comparison sequence is produced at all — claim C10.) -/
theorem c5_change_percent (b c : ResultSet) (rows : List CompEntry)
    (h : compute_comparisons b c = .ok rows) :
    ∀ e ∈ rows,
      (∀ x y, e.baseline = some x → e.compare = some y → e.change = (y - x) / x * 100)
      ∧ ((e.baseline = none ∨ e.compare = none) → e.change = 0) := by
  intro e he
  unfold compute_comparisons at h
  obtain ⟨k, _, hok⟩ := mapME_ok_mem h e he
  exact mkEntry_change b c k e hok

theorem c5_change_percent_witness :
    CompEntry.change ⟨"a", some 1, some 3, 200⟩ = ((3 : ℚ) - 1) / 1 * 100 := by
  have h := c5_change_percent [("a", ((1 : ℚ), "GFLOPS"))] [("a", ((3 : ℚ), "GFLOPS"))]
    [⟨"a", some 1, some 3, 200⟩] (by decide)
  exact (h ⟨"a", some 1, some 3, 200⟩ (by decide)).1 1 3 rfl rfl

/-- C6: the comparator's key sequence is the union of the two input key
sets, strictly sorted in ascending lexicographic order, and the produced
comparison sequence has exactly one entry per key, in that order. -/
theorem c6_sorted_union_keys (b c : ResultSet) :
    List.Sorted (fun x y : String => x < y) (all_keys b c)
      ∧ (∀ k, k ∈ all_keys b c ↔ k ∈ b.map Prod.fst ∨ k ∈ c.map Prod.fst)
      ∧ ∀ rows, compute_comparisons b c = .ok rows →
          rows.map CompEntry.key = all_keys b c := by
  refine ⟨all_keys_sorted b c, fun k => all_keys_mem b c k, ?_⟩
  intro rows h
  unfold compute_comparisons at h
  exact mapME_keys h

theorem c6_sorted_union_keys_witness :
    List.map CompEntry.key [(⟨"k", some 2, some 4, 100⟩ : CompEntry)]
      = all_keys [("k", ((2 : ℚ), "GB/s"))] [("k", ((4 : ℚ), "GB/s"))] :=
  (c6_sorted_union_keys [("k", ((2 : ℚ), "GB/s"))] [("k", ((4 : ℚ), "GB/s"))]).2.2
    [⟨"k", some 2, some 4, 100⟩] (by decide)

/-- C7: `format_change` yields `"+" ++ <two-decimal rendering> ++ "%"`
when the change exceeds 0.1, the plain two-decimal rendering (whose first
character is then the minus sign) followed by `"%"` when it is below
-0.1, and the fixed literal `" ~0.00%"` (leading space) for every change
in the band [-0.1, 0.1]; the rendering always has exactly two digits
after its final dot. -/
theorem c7_format_change (c : ℚ) :
    (c > 1/10 → format_change c = "+" ++ fixed2 c ++ "%")
    ∧ (c < -(1/10) → format_change c = fixed2 c ++ "%" ∧ (fixed2 c).data.head? = some '-')
    ∧ (-(1/10) ≤ c → c ≤ 1/10 → format_change c = " ~0.00%")
    ∧ (afterLastDot (fixed2 c)).length = 2
    ∧ (∀ ch ∈ afterLastDot (fixed2 c), ch.isDigit = true) := by
  refine ⟨?_, ?_, ?_, ?_, ?_⟩
  · intro h
    unfold format_change
    rw [if_pos h]
  · intro h
    constructor
    · unfold format_change
      rw [if_neg (by linarith), if_pos h]
    · exact fixed2_head_neg c (by linarith)
  · intro h1 h2
    unfold format_change
    rw [if_neg (by linarith), if_neg (by linarith)]
  · rw [afterLastDot_fixed2]
    exact pad2_length _ (Nat.mod_lt _ (by omega))
  · rw [afterLastDot_fixed2]
    exact pad2_digits _

theorem c7_format_change_witness :
    format_change 5 = "+" ++ fixed2 5 ++ "%"
      ∧ format_change (-5) = fixed2 (-5) ++ "%"
      ∧ format_change (1/20) = " ~0.00%" :=
  ⟨(c7_format_change 5).1 (by norm_num),
    ((c7_format_change (-5)).2.1 (by norm_num)).1,
    (c7_format_change (1/20)).2.2.1 (by norm_num) (by norm_num)⟩

/-- C8 (counterexample): a line literally carrying `1_000_000 MFLOPS`
does not normalize to 1000 GFLOPS: the value pattern `[\d.]+` cannot
span underscores, so the captured token is `000`, giving the value 0. -/
theorem c8_counterexample :
    parse_benchmark_line "k: 1_000_000 MFLOPS" = .ok (some ("k", (0 : ℚ), "GFLOPS"))
      ∧ (0 : ℚ) ≠ 1000 :=
  ⟨by decide, by decide⟩

/-- C8 (amended): unit normalization identifies equal quantities across
the units of one family — `1 TFLOPS`, `1000 GFLOPS` and `1000000 MFLOPS`
(written without underscores) all normalize to 1000 GFLOPS, and likewise
`1 TB/s`, `1000 GB/s` and `1000000 MB/s` all normalize to 1000 GB/s,
exactly. -/
theorem c8_normalization_roundtrip :
    parse_benchmark_line "k: 1 TFLOPS" = .ok (some ("k", (1000 : ℚ), "GFLOPS"))
      ∧ parse_benchmark_line "k: 1000 GFLOPS" = .ok (some ("k", (1000 : ℚ), "GFLOPS"))
      ∧ parse_benchmark_line "k: 1000000 MFLOPS" = .ok (some ("k", (1000 : ℚ), "GFLOPS"))
      ∧ parse_benchmark_line "k: 1 TB/s" = .ok (some ("k", (1000 : ℚ), "GB/s"))
      ∧ parse_benchmark_line "k: 1000 GB/s" = .ok (some ("k", (1000 : ℚ), "GB/s"))
      ∧ parse_benchmark_line "k: 1000000 MB/s" = .ok (some ("k", (1000 : ℚ), "GB/s")) :=
  ⟨by decide, by decide, by decide, by decide, by decide, by decide⟩

/-- C9: if either input file does not exist, the run surfaces an error,
terminates with a non-zero exit status, and writes no report file (not
even a partial one).  (If the baseline file exists, its lines are parsed
first; a `ValueError` raised there also aborts the run with a non-zero
status and no report, so the guarantee holds on every path.) -/
theorem c9_missing_file_fatal (bf cf : Option (List String)) (h : bf = none ∨ cf = none) :
    exitCode (runMain bf cf) ≠ 0
      ∧ reportOf (runMain bf cf) = none
      ∧ errorSurfaced (runMain bf cf) = true := by
  cases bf with
  | none => exact ⟨Nat.one_ne_zero, rfl, rfl⟩
  | some bl =>
    cases cf with
    | some cl => rcases h with h1 | h1 <;> cases h1
    | none =>
      cases hl : load_results bl with
      | error e =>
        have hrun : runMain (some bl) none = .crash e := by
          simp only [runMain, hl]
        rw [hrun]
        exact ⟨Nat.one_ne_zero, rfl, rfl⟩
      | ok rb =>
        have hrun : runMain (some bl) none = .exitMissingFile := by
          simp only [runMain, hl]
        rw [hrun]
        exact ⟨Nat.one_ne_zero, rfl, rfl⟩

theorem c9_missing_file_fatal_witness :
    exitCode (runMain none (some [])) ≠ 0
      ∧ reportOf (runMain none (some [])) = none
      ∧ errorSurfaced (runMain none (some [])) = true :=
  c9_missing_file_fatal none (some []) (Or.inl rfl)

/-- C10: the percentage-change division is unguarded — whenever some key
present in both result sets has baseline value 0 (which the parser and
loader accept, e.g. from a line `"<key>: 0 GFLOPS"`), the comparison
stage raises `ZeroDivisionError`, and the run crashes with a non-zero
exit status and no report instead of producing one. -/
theorem c10_zero_baseline_division (b c : ResultSet) (k : String) (p q : ℚ × String)
    (hb : dictGet b k = some p) (hp : p.1 = 0) (hc : dictGet c k = some q) :
    compute_comparisons b c = .error .zeroDivisionError
      ∧ ∀ bl cl, load_results bl = .ok b → load_results cl = .ok c →
          runMain (some bl) (some cl) = .crash .zeroDivisionError
            ∧ exitCode (runMain (some bl) (some cl)) ≠ 0
            ∧ reportOf (runMain (some bl) (some cl)) = none := by
  refine ⟨compute_comparisons_zero_baseline b c k p q hb hp hc, ?_⟩
  intro bl cl hlb hlc
  have hr := runMain_crash_zero bl cl b c hlb hlc k p q hb hp hc
  rw [hr]
  exact ⟨rfl, by decide, rfl⟩

theorem c10_zero_baseline_division_witness :
    compute_comparisons [("a", ((0 : ℚ), "GFLOPS"))] [("a", ((5 : ℚ), "GFLOPS"))]
        = .error .zeroDivisionError
      ∧ runMain (some ["a: 0 GFLOPS"]) (some ["a: 5 GFLOPS"]) = .crash .zeroDivisionError := by
  have h := c10_zero_baseline_division [("a", ((0 : ℚ), "GFLOPS"))] [("a", ((5 : ℚ), "GFLOPS"))]
    "a" ((0 : ℚ), "GFLOPS") ((5 : ℚ), "GFLOPS") (by decide) rfl (by decide)
  exact ⟨h.1, (h.2 ["a: 0 GFLOPS"] ["a: 5 GFLOPS"] (by decide) (by decide)).1⟩
